import Mathlib

/-!
Verification development for `fit_data.py`: a linear pipeline that reads a
spreadsheet of temperature-vs-time measurements, cleans it, fits a degree-1
or degree-2 polynomial of Celsius temperature against a numeric time
encoding, writes the fit parameters and the augmented table to CSV files,
and renders a plot.

Modelling conventions.

* Spreadsheet cells are modelled over exact rationals.  A cell of the
  Celsius or Fahrenheit column is `Option Value`: `none` models an empty
  cell (pandas `NaN`, removed by `dropna`), `Value.num q` models a cell
  whose content is coercible to a number by `pd.to_numeric` (a numeric
  cell, or a numeric string), and `Value.str s` models a non-missing cell
  that is not numerically coercible (such as the string "N/A").
* Timestamps are modelled directly by their matplotlib date number: the
  count of days since the matplotlib epoch, with a fractional part for the
  time of day, as a rational.  On this representation `mdates.date2num`
  is the identity, and `pd.to_datetime` of a date-typed cell keeps the
  value.  A timestamp cell is `Option ℚ` (`none` models an empty cell).
* `np.polyfit(x, y, deg)` performs an ordinary least-squares fit: it
  always returns coefficients minimizing the sum of squared residuals
  over all polynomials of the requested degree (via `lstsq`, with a
  `RankWarning` but no failure when the system is rank-deficient).
  `polyfit1` and `polyfit2` below mirror this: on a nonsingular normal
  matrix they compute the Cramer solution of the normal equations,
  which is then the unique least-squares minimizer and agrees exactly
  with the library; on a singular normal matrix they return an explicit
  least-squares minimizer for the degenerate configuration (all times
  equal, or all times on a common lower-degree relation).  In the
  singular case the set of minimizers is a positive-dimensional affine
  space and the library picks the minimum-norm element in column-scaled
  coordinates, whose exact value involves irrational column norms and
  is therefore not representable over ℚ; the embedding picks a rational
  representative minimizer instead.  Which minimizer is picked is not
  observable by any claim: the claims speak of least-squares
  optimality, predictions, labels and file shapes, all of which are
  proved for every nonempty table.  When the data is empty,
  `np.polyfit` raises `TypeError("expected non-empty vector for x")`;
  this is modelled by the `FitErr.emptyData` error.
* The file system is an association list from paths to file contents; a
  write prepends and thereby shadows (overwrites) any earlier entry with
  the same path, and all statements about files go through `lookupFS`.
-/

namespace SmartCae

/-- Content of a non-empty spreadsheet cell in the temperature columns:
either a value coercible to a number by `pd.to_numeric` (`num`), or
non-coercible text such as "N/A" (`str`). -/
inductive Value where
  | num (q : ℚ)
  | str (s : String)
deriving DecidableEq

/-- One raw row of the input spreadsheet, read with
`header=None, names=[Time-Stamp, Temperature/°C, Temperature/°F]`:
a timestamp cell, a Celsius cell and a Fahrenheit cell, each possibly
empty (`none`). -/
structure RawRow where
  ts : Option ℚ
  tc : Option Value
  tf : Option Value
deriving DecidableEq

/-- One cleaned observation row, after `pd.to_datetime` on the timestamp
column and `astype(float64)` on the Celsius column: a numeric timestamp,
a numeric Celsius value, and the (unconverted, ignored downstream)
Fahrenheit cell content. -/
structure Obs where
  ts : ℚ
  tc : ℚ
  tf : Value
deriving DecidableEq

/-- Predicate of the `dropna(how=any, axis=0)` step: a row is kept when
none of its three cells is missing. -/
def dropnaKeep (r : RawRow) : Bool :=
  r.ts.isSome && r.tc.isSome && r.tf.isSome

/-- Predicate of the `pd.to_numeric(..., errors=coerce).notnull()` mask:
a row is kept when its Celsius cell is numerically coercible. -/
def isNumCell : Option Value → Bool
  | some (Value.num _) => true
  | _ => false

/-- Conversion of a fully-present raw row with numeric Celsius cell into a
cleaned observation; models the final type coercions of `read_data`. -/
def rowToObs (r : RawRow) : Option Obs :=
  match r.ts, r.tc, r.tf with
  | some t, some (Value.num c), some f => some ⟨t, c, f⟩
  | _, _, _ => none

/-- Embedding of `read_data` (without the console echo): drop rows with a
missing cell in any column, then drop rows whose Celsius cell is not
numerically coercible, then coerce the remaining rows. -/
def read_data (table : List RawRow) : List Obs :=
  (((table.filter dropnaKeep).filter fun r => isNumCell r.tc).filterMap rowToObs)

/-- Re-rendering of a cleaned observation as the raw row it came from. -/
def obsToRaw (o : Obs) : RawRow :=
  ⟨some o.ts, some (Value.num o.tc), some o.tf⟩

/-- Embedding of `celsius_to_fahrenheit`: `T * 9/5 + 32`. -/
def celsius_to_fahrenheit (T : ℚ) : ℚ := T * 9 / 5 + 32

/-- Embedding of `mdates.date2num`: timestamps are modelled directly by
their matplotlib day-count number, on which `date2num` is the identity. -/
def date2num (t : ℚ) : ℚ := t

/-- The regression points of a cleaned table: for each row, the pair of
its numeric time encoding and its Celsius temperature. -/
def obsPts (data : List Obs) : List (ℚ × ℚ) :=
  data.map fun r => (date2num r.ts, r.tc)

/-- Power sum of the abscissas: the sum over all points of `x ^ k`. -/
def powSum (pts : List (ℚ × ℚ)) (k : ℕ) : ℚ :=
  (pts.map fun q => q.1 ^ k).sum

/-- Mixed moment: the sum over all points of `y * x ^ k`. -/
def mixSum (pts : List (ℚ × ℚ)) (k : ℕ) : ℚ :=
  (pts.map fun q => q.2 * q.1 ^ k).sum

/-- Determinant of the degree-1 normal matrix of the least-squares
problem solved by `np.polyfit(x, y, 1)`. -/
def det1 (pts : List (ℚ × ℚ)) : ℚ :=
  powSum pts 2 * powSum pts 0 - powSum pts 1 * powSum pts 1

/-- Nonsingular branch of the degree-1 fit: the Cramer solution
`(a, b)` of the degree-1 normal equations, highest power first. -/
def polyfit1Reg (pts : List (ℚ × ℚ)) : ℚ × ℚ :=
  ((mixSum pts 1 * powSum pts 0 - mixSum pts 0 * powSum pts 1) / det1 pts,
   (powSum pts 2 * mixSum pts 0 - powSum pts 1 * mixSum pts 1) / det1 pts)

/-- Singular branch of the degree-1 fit.  A singular degree-1 normal
matrix on nonempty data means all abscissas coincide, and then the
least-squares minimizers are exactly the lines through the mean
ordinate at that abscissa; the constant line at the mean is a
representative minimizer (the library returns a different, irrational
representative; see the module comment). -/
def polyfit1Sing (pts : List (ℚ × ℚ)) : ℚ × ℚ :=
  (0, mixSum pts 0 / powSum pts 0)

/-- Embedding of `np.polyfit(x, y, 1)`: a least-squares minimizer of
degree 1, highest power first; the unique one (Cramer) when the normal
matrix is nonsingular, a representative one otherwise. -/
def polyfit1 (pts : List (ℚ × ℚ)) : ℚ × ℚ :=
  if det1 pts = 0 then polyfit1Sing pts else polyfit1Reg pts

/-- Embedding of `np.polyval` for a degree-1 coefficient pair, highest
power first: `a * x + b`. -/
def polyval1 (p : ℚ × ℚ) (x : ℚ) : ℚ := p.1 * x + p.2

/-- Sum of squared residuals of a degree-1 candidate polynomial. -/
def ssr1 (p : ℚ × ℚ) (pts : List (ℚ × ℚ)) : ℚ :=
  (pts.map fun q => (polyval1 p q.1 - q.2) ^ 2).sum

/-- Residual moment of order `k` of a degree-1 candidate: the sum over
all points of `(prediction - y) * x ^ k`.  The normal equations state
that these vanish for `k = 0, 1`. -/
def residMom1 (p : ℚ × ℚ) (pts : List (ℚ × ℚ)) (k : ℕ) : ℚ :=
  (pts.map fun q => (polyval1 p q.1 - q.2) * q.1 ^ k).sum

/-- Determinant of the degree-2 normal matrix of the least-squares
problem solved by `np.polyfit(x, y, 2)`. -/
def det2 (pts : List (ℚ × ℚ)) : ℚ :=
  powSum pts 4 * (powSum pts 2 * powSum pts 0 - powSum pts 1 * powSum pts 1)
    - powSum pts 3 * (powSum pts 3 * powSum pts 0 - powSum pts 1 * powSum pts 2)
    + powSum pts 2 * (powSum pts 3 * powSum pts 1 - powSum pts 2 * powSum pts 2)

/-- Nonsingular branch of the degree-2 fit: the Cramer solution
`(a, b, c)` of the degree-2 normal equations, highest power first. -/
def polyfit2Reg (pts : List (ℚ × ℚ)) : ℚ × ℚ × ℚ :=
  ((mixSum pts 2 * (powSum pts 2 * powSum pts 0 - powSum pts 1 * powSum pts 1)
      - powSum pts 3 * (mixSum pts 1 * powSum pts 0 - mixSum pts 0 * powSum pts 1)
      + powSum pts 2 * (mixSum pts 1 * powSum pts 1 - mixSum pts 0 * powSum pts 2))
     / det2 pts,
   (powSum pts 4 * (mixSum pts 1 * powSum pts 0 - mixSum pts 0 * powSum pts 1)
      - mixSum pts 2 * (powSum pts 3 * powSum pts 0 - powSum pts 1 * powSum pts 2)
      + powSum pts 2 * (powSum pts 3 * mixSum pts 0 - mixSum pts 1 * powSum pts 2))
     / det2 pts,
   (powSum pts 4 * (powSum pts 2 * mixSum pts 0 - powSum pts 1 * mixSum pts 1)
      - powSum pts 3 * (powSum pts 3 * mixSum pts 0 - powSum pts 2 * mixSum pts 1)
      + mixSum pts 2 * (powSum pts 3 * powSum pts 1 - powSum pts 2 * powSum pts 2))
     / det2 pts)

/-- Singular branch of the degree-2 fit.  A singular degree-2 normal
matrix on nonempty data means the squared abscissas satisfy a common
affine relation in the abscissas, so the degree-2 model collapses onto
the degree-1 model over the data and the degree-1 minimizer with zero
leading coefficient is a representative degree-2 minimizer (the
library returns a different, irrational representative; see the module
comment). -/
def polyfit2Sing (pts : List (ℚ × ℚ)) : ℚ × ℚ × ℚ :=
  (0, (polyfit1 pts).1, (polyfit1 pts).2)

/-- Embedding of `np.polyfit(x, y, 2)`: a least-squares minimizer of
degree 2, highest power first; the unique one (Cramer) when the normal
matrix is nonsingular, a representative one otherwise. -/
def polyfit2 (pts : List (ℚ × ℚ)) : ℚ × ℚ × ℚ :=
  if det2 pts = 0 then polyfit2Sing pts else polyfit2Reg pts

/-- Sum of the squared ordinates, the last second-order moment needed
to expand a sum of squared residuals. -/
def y2Sum (pts : List (ℚ × ℚ)) : ℚ :=
  (pts.map fun q => q.2 ^ 2).sum

/-- The auxiliary regression data fitting the squared abscissas against
the abscissas, used to analyse the singular degree-2 case. -/
def auxPts (pts : List (ℚ × ℚ)) : List (ℚ × ℚ) :=
  pts.map fun q => (q.1, q.1 ^ 2)

/-- Embedding of `np.polyval` for a degree-2 coefficient triple, highest
power first: `a * x ^ 2 + b * x + c`. -/
def polyval2 (p : ℚ × ℚ × ℚ) (x : ℚ) : ℚ := p.1 * x ^ 2 + p.2.1 * x + p.2.2

/-- Sum of squared residuals of a degree-2 candidate polynomial. -/
def ssr2 (p : ℚ × ℚ × ℚ) (pts : List (ℚ × ℚ)) : ℚ :=
  (pts.map fun q => (polyval2 p q.1 - q.2) ^ 2).sum

/-- Residual moment of order `k` of a degree-2 candidate.  The normal
equations state that these vanish for `k = 0, 1, 2`. -/
def residMom2 (p : ℚ × ℚ × ℚ) (pts : List (ℚ × ℚ)) (k : ℕ) : ℚ :=
  (pts.map fun q => (polyval2 p q.1 - q.2) * q.1 ^ k).sum

/-- Failure modes of `fit_data`: the explicit `raise NotImplementedError`
of the final `else` branch, and the
`TypeError("expected non-empty vector for x")` that `np.polyfit` raises
when the data is empty. -/
inductive FitErr where
  | notImplemented
  | emptyData
deriving DecidableEq

/-- One row of the augmented table produced by `fit_data`: the three
original columns plus the two appended prediction columns. -/
structure FitRow where
  ts : ℚ
  tc : ℚ
  tf : Value
  predC : ℚ
  predF : ℚ
deriving DecidableEq

/-- Embedding of `fit_data` (without the console echo).  The fit-mode
dispatch mirrors the `if / elif / else` of the source; inside a valid
branch, `np.polyfit` first rejects empty data, then the fitted
polynomial is evaluated at every row and the Fahrenheit prediction is
derived from the Celsius one.  The result pairs the augmented table with
the parameter frame `pd.DataFrame([params], columns=params_labels)`,
modelled as its column labels together with its single value row. -/
def fit_data (data : List Obs) (fit_option : String) :
    Except FitErr (List FitRow × (List String × List ℚ)) :=
  if fit_option = "linear" then
    if data.isEmpty then Except.error FitErr.emptyData
    else
      let p := polyfit1 (obsPts data)
      Except.ok
        (data.map fun r =>
          ⟨r.ts, r.tc, r.tf, polyval1 p (date2num r.ts),
            celsius_to_fahrenheit (polyval1 p (date2num r.ts))⟩,
         (["a", "b"], [p.1, p.2]))
  else if fit_option = "quadratic" then
    if data.isEmpty then Except.error FitErr.emptyData
    else
      let p := polyfit2 (obsPts data)
      Except.ok
        (data.map fun r =>
          ⟨r.ts, r.tc, r.tf, polyval2 p (date2num r.ts),
            celsius_to_fahrenheit (polyval2 p (date2num r.ts))⟩,
         (["a", "b", "c"], [p.1, p.2.1, p.2.2]))
  else Except.error FitErr.notImplemented

/-- Embedding of the Python `str.lower()` call of `get_user_input`:
lowercase every character of the string. -/
def lower (s : String) : String := ⟨s.data.map Char.toLower⟩

/-- Embedding of the fit-mode loop of `get_user_input`: given the
sequence of strings the user enters at the fit-option prompt, return the
lowercase normalization of the first one that matches, re-prompting past
every non-matching entry; `none` when the sequence is exhausted. -/
def getFitOption : List String → Option String
  | [] => none
  | s :: rest =>
    if lower s ∈ ["linear", "quadratic"] then some (lower s)
    else getFitOption rest

/-- Content of a file produced or consumed by the pipeline: the input
spreadsheet, a delimited text file written by `to_csv(index=False)`
(header row of column names plus value rows), or the rendered plot
image, which is determined by the plotted series and the fit mode. -/
inductive FileContent where
  | excel (rows : List RawRow)
  | csv (header : List String) (body : List (List Value))
  | png (rows : List FitRow) (fit_option : String)
deriving DecidableEq

/-- The file system: an association list from paths to contents.  Later
entries shadow earlier ones, so a write overwrites any existing file of
the same name; all observations go through `lookupFS`. -/
def FS : Type := List (String × FileContent)

/-- Look up the current content of a path: the first (most recent)
entry wins. -/
def lookupFS : FS → String → Option FileContent
  | [], _ => none
  | e :: fs, p => if e.1 = p then some e.2 else lookupFS fs p

/-- Write a file, overwriting any existing file of the same name. -/
def writeFS (fs : FS) (p : String) (c : FileContent) : FS :=
  (p, c) :: fs

/-- Embedding of `os.path.join(dir, file)` for the shapes the pipeline
produces: the bare file name when the directory part is empty, else the
two joined with a separator. -/
def joinPath (dir file : String) : String :=
  if dir = "" then file else dir ++ "/" ++ file

/-- Embedding of `os.path.dirname`: the characters before the last
separator, empty when there is none. -/
def dirname (p : String) : String :=
  match p.data.reverse.dropWhile fun c => c != '/' with
  | [] => ""
  | _ :: rest => ⟨rest.reverse⟩

/-- Header of the predictions CSV: the three original columns followed
by the two appended prediction columns. -/
def predHeader : List String :=
  ["Time-Stamp", "Temperature/°C", "Temperature/°F", "Prediction/°C", "Prediction/°F"]

/-- Serialization of one augmented row into the cells of a predictions
CSV line, in column order. -/
def fitRowToCsv (r : FitRow) : List Value :=
  [Value.num r.ts, Value.num r.tc, r.tf, Value.num r.predC, Value.num r.predF]

/-- Embedding of `save_fit_params` (without the console echo): write the
parameter frame, one header row of coefficient names and one value row,
to `<fit_option>_fit_parameters.csv` in the data folder. -/
def save_fit_params (fs : FS) (params : List String × List ℚ)
    (fit_option data_folder_path : String) : FS :=
  writeFS fs (joinPath data_folder_path (fit_option ++ "_fit_parameters.csv"))
    (FileContent.csv params.1 [params.2.map Value.num])

/-- Embedding of `save_predictions` (without the console echo): write
the augmented table, header row plus one row per observation in table
order, to `<fit_option>_predictions.csv` in the data folder. -/
def save_predictions (fs : FS) (data : List FitRow)
    (fit_option data_folder_path : String) : FS :=
  writeFS fs (joinPath data_folder_path (fit_option ++ "_predictions.csv"))
    (FileContent.csv predHeader (data.map fitRowToCsv))

/-- Embedding of `plot_data`: render the chart of the augmented table
and save it to `<fit_option>_fit.png` in the data folder. -/
def plot_data (fs : FS) (data : List FitRow)
    (fit_option data_folder_path : String) : FS :=
  writeFS fs (joinPath data_folder_path (fit_option ++ "_fit.png"))
    (FileContent.png data fit_option)

/-- Failure modes of a pipeline run: the input file is absent, the input
file cannot be parsed as a spreadsheet, or `fit_data` fails. -/
inductive RunErr where
  | fileNotFound
  | notExcel
  | fitError (e : FitErr)
deriving DecidableEq

/-- Embedding of `pd.read_excel`: the raw rows of the file at the given
path, failing when the file is absent or not a spreadsheet. -/
def read_excel (fs : FS) (p : String) : Except RunErr (List RawRow) :=
  match lookupFS fs p with
  | none => Except.error RunErr.fileNotFound
  | some (FileContent.excel rows) => Except.ok rows
  | some _ => Except.error RunErr.notExcel

/-- Embedding of `main`, parameterized by the `(path, mode)` pair the
Input Collector returned: read and clean the data, fit, then save the
parameters, the predictions and the plot into the input directory. -/
def main (fs : FS) (data_file_path fit_option : String) : Except RunErr FS :=
  let data_folder_path := dirname data_file_path
  match read_excel fs data_file_path with
  | Except.error e => Except.error e
  | Except.ok raw =>
    match fit_data (read_data raw) fit_option with
    | Except.error e => Except.error (RunErr.fitError e)
    | Except.ok (data2, params) =>
      let fs1 := save_fit_params fs params fit_option data_folder_path
      let fs2 := save_predictions fs1 data2 fit_option data_folder_path
      Except.ok (plot_data fs2 data2 fit_option data_folder_path)

/-- Numeric reading of one CSV cell, for the read-back direction of the
round-trip property. -/
def cellToNum : Value → Option ℚ
  | Value.num q => some q
  | Value.str _ => none

/-- Modelled from the spec: the repository source contains no code that
reads a parameter file back, so the reader is taken from the round-trip
sentence of the spec — read the produced parameter file as a CSV with
one header row of labels and one row of numeric coefficient values. -/
def read_fit_params (fs : FS) (path : String) : Option (List String × List ℚ) :=
  match lookupFS fs path with
  | some (FileContent.csv header [row]) =>
    if row.all fun c => (cellToNum c).isSome
    then some (header, row.filterMap cellToNum)
    else none
  | _ => none

/-- Example row: valid observation at time 1, 20 °C. -/
def exRow1 : RawRow := ⟨some 1, some (Value.num 20), some (Value.num 68)⟩

/-- Example row: missing Celsius cell. -/
def exRowMissing : RawRow := ⟨some 2, none, some (Value.num 70)⟩

/-- Example row: non-numeric Celsius cell "N/A". -/
def exRowText : RawRow := ⟨some 3, some (Value.str "N/A"), some (Value.num 72)⟩

/-- Example row: valid observation at time 4, 22 °C. -/
def exRow2 : RawRow := ⟨some 4, some (Value.num 22), some (Value.num 72)⟩

/-- Witness data: three observations at times 0, 1, 2 with temperatures
1, 3, 7 °C; both normal-matrix determinants are nonzero. -/
def wObs3 : List Obs :=
  [⟨0, 1, Value.num 33⟩, ⟨1, 3, Value.num 37⟩, ⟨2, 7, Value.num 44⟩]

/-- Witness data: two observations on the line `y = x`. -/
def wObsLin : List Obs := [⟨0, 0, Value.num 32⟩, ⟨1, 1, Value.num 34⟩]

/-- The augmented table the linear fit produces on `wObsLin`. -/
def wRowsLin : List FitRow :=
  [⟨0, 0, Value.num 32, 0, 32⟩, ⟨1, 1, Value.num 34, 1, 169 / 5⟩]

/-- Witness data: a raw row whose Celsius cell is the text "N/A". -/
def badRow : RawRow := ⟨some 1, some (Value.str "N/A"), some (Value.num 70)⟩

/-- Witness file system: a spreadsheet whose only row is invalid, so the
cleaned table is empty. -/
def wFs7 : FS := [("data.xlsx", FileContent.excel [badRow])]

/-- Witness data: a raw spreadsheet with exactly two valid rows. -/
def wRaw7b : List RawRow :=
  [⟨some 0, some (Value.num 5), some (Value.num 41)⟩,
   ⟨some 1, some (Value.num 6), some (Value.num 43)⟩]

/-- Witness file system: a spreadsheet with exactly two valid rows. -/
def wFs7b : FS := [("data.xlsx", FileContent.excel wRaw7b)]

/-- Witness data: a raw spreadsheet with two valid rows on `y = x`. -/
def wRaw6 : List RawRow :=
  [⟨some 0, some (Value.num 0), some (Value.num 32)⟩,
   ⟨some 1, some (Value.num 1), some (Value.num 34)⟩]

/-- Witness file system: a valid two-row spreadsheet together with a
stale parameter file that a run must overwrite. -/
def wFs6 : FS :=
  [("linear_fit_parameters.csv", FileContent.csv ["stale"] []),
   ("data.xlsx", FileContent.excel wRaw6)]

/-- Witness file system: a valid two-row spreadsheet alone. -/
def wFs8 : FS := [("data.xlsx", FileContent.excel wRaw6)]

/-- Two successive runs of the pipeline on the same input path and
mode, the second on the file system the first produced. -/
def runTwice (fs : FS) (p m : String) : Except RunErr FS :=
  match main fs p m with
  | Except.error e => Except.error e
  | Except.ok fs2 => main fs2 p m

/-- Witness file system: a valid spreadsheet whose path collides with
the predictions file the linear run writes. -/
def wFsClash : FS := [("linear_predictions.csv", FileContent.excel wRaw6)]

/-- C2: the Data Loader drops exactly the rows with a missing cell in some
column or a non-coercible Celsius cell, keeps every valid row in original
file order, and on a table with one missing-Celsius row and one "N/A" row
it returns exactly the other rows, in order. -/
theorem read_data_spec :
    (∀ table : List RawRow,
      (read_data table).map obsToRaw =
        table.filter fun r => dropnaKeep r && isNumCell r.tc) ∧
    read_data [exRow1, exRowMissing, exRowText, exRow2] =
      [⟨1, 20, Value.num 68⟩, ⟨4, 22, Value.num 72⟩] := by
  constructor
  · intro table
    induction table with
    | nil => rfl
    | cons r t ih =>
      rcases r with ⟨ts, tc, tf⟩
      rcases ts with _ | τ <;> rcases tf with _ | f <;>
        rcases tc with _ | v <;> try rcases v with q | s <;>
        simp_all [read_data, dropnaKeep, isNumCell, rowToObs, obsToRaw,
          List.filter_cons, List.filterMap_cons]
      all_goals simp_all [read_data, dropnaKeep, isNumCell, rowToObs, obsToRaw,
        List.filter_cons, List.filterMap_cons]
  · rfl

/-- Expansion of the degree-1 residual moments in power sums and mixed
moments. -/
theorem residMom1_eq (p : ℚ × ℚ) (pts : List (ℚ × ℚ)) (k : ℕ) :
    residMom1 p pts k =
      p.1 * powSum pts (k + 1) + p.2 * powSum pts k - mixSum pts k := by
  induction pts with
  | nil => simp [residMom1, powSum, mixSum]
  | cons q t ih =>
    simp only [residMom1, powSum, mixSum, polyval1, List.map_cons,
      List.sum_cons] at ih ⊢
    linear_combination ih

/-- Expansion of the degree-2 residual moments in power sums and mixed
moments. -/
theorem residMom2_eq (p : ℚ × ℚ × ℚ) (pts : List (ℚ × ℚ)) (k : ℕ) :
    residMom2 p pts k =
      p.1 * powSum pts (k + 2) + p.2.1 * powSum pts (k + 1)
        + p.2.2 * powSum pts k - mixSum pts k := by
  induction pts with
  | nil => simp [residMom2, powSum, mixSum]
  | cons q t ih =>
    simp only [residMom2, powSum, mixSum, polyval2, List.map_cons,
      List.sum_cons] at ih ⊢
    linear_combination ih

/-- The Cramer solution of the degree-1 system satisfies the order-0
normal equation. -/
theorem polyfit1Reg_residMom0 (pts : List (ℚ × ℚ)) (h : det1 pts ≠ 0) :
    residMom1 (polyfit1Reg pts) pts 0 = 0 := by
  have e := residMom1_eq (polyfit1Reg pts) pts 0
  norm_num at e
  rw [e]
  simp only [polyfit1Reg]
  field_simp
  simp only [det1]
  ring

/-- The Cramer solution of the degree-1 system satisfies the order-1
normal equation. -/
theorem polyfit1Reg_residMom1 (pts : List (ℚ × ℚ)) (h : det1 pts ≠ 0) :
    residMom1 (polyfit1Reg pts) pts 1 = 0 := by
  have e := residMom1_eq (polyfit1Reg pts) pts 1
  norm_num at e
  rw [e]
  simp only [polyfit1Reg]
  field_simp
  simp only [det1]
  ring

/-- The Cramer solution of the degree-2 system satisfies the order-0
normal equation. -/
theorem polyfit2Reg_residMom0 (pts : List (ℚ × ℚ)) (h : det2 pts ≠ 0) :
    residMom2 (polyfit2Reg pts) pts 0 = 0 := by
  have e := residMom2_eq (polyfit2Reg pts) pts 0
  norm_num at e
  rw [e]
  simp only [polyfit2Reg]
  field_simp
  simp only [det2]
  ring

/-- The Cramer solution of the degree-2 system satisfies the order-1
normal equation. -/
theorem polyfit2Reg_residMom1 (pts : List (ℚ × ℚ)) (h : det2 pts ≠ 0) :
    residMom2 (polyfit2Reg pts) pts 1 = 0 := by
  have e := residMom2_eq (polyfit2Reg pts) pts 1
  norm_num at e
  rw [e]
  simp only [polyfit2Reg]
  field_simp
  simp only [det2]
  ring

/-- The Cramer solution of the degree-2 system satisfies the order-2
normal equation. -/
theorem polyfit2Reg_residMom2 (pts : List (ℚ × ℚ)) (h : det2 pts ≠ 0) :
    residMom2 (polyfit2Reg pts) pts 2 = 0 := by
  have e := residMom2_eq (polyfit2Reg pts) pts 2
  norm_num at e
  rw [e]
  simp only [polyfit2Reg]
  field_simp
  simp only [det2]
  ring

/-- Decomposition of the sum of squared residuals of an arbitrary
degree-1 candidate around a reference candidate. -/
theorem ssr1_decomp (p p' : ℚ × ℚ) (pts : List (ℚ × ℚ)) :
    ssr1 p' pts =
      ssr1 p pts
        + (pts.map fun q => (polyval1 p' q.1 - polyval1 p q.1) ^ 2).sum
        + 2 * ((p'.1 - p.1) * residMom1 p pts 1
          + (p'.2 - p.2) * residMom1 p pts 0) := by
  induction pts with
  | nil => simp [ssr1, residMom1]
  | cons q t ih =>
    simp only [ssr1, residMom1, polyval1, List.map_cons, List.sum_cons] at ih ⊢
    linear_combination ih

/-- Decomposition of the sum of squared residuals of an arbitrary
degree-2 candidate around a reference candidate. -/
theorem ssr2_decomp (p p' : ℚ × ℚ × ℚ) (pts : List (ℚ × ℚ)) :
    ssr2 p' pts =
      ssr2 p pts
        + (pts.map fun q => (polyval2 p' q.1 - polyval2 p q.1) ^ 2).sum
        + 2 * ((p'.1 - p.1) * residMom2 p pts 2
          + (p'.2.1 - p.2.1) * residMom2 p pts 1
          + (p'.2.2 - p.2.2) * residMom2 p pts 0) := by
  induction pts with
  | nil => simp [ssr2, residMom2]
  | cons q t ih =>
    simp only [ssr2, residMom2, polyval2, List.map_cons, List.sum_cons] at ih ⊢
    linear_combination ih

/-- Nonnegativity of a sum of squares over a list. -/
theorem sum_sq_nonneg (l : List (ℚ × ℚ)) (f : ℚ × ℚ → ℚ) :
    0 ≤ (l.map fun q => f q ^ 2).sum := by
  induction l with
  | nil => simp
  | cons a t ih =>
    simp only [List.map_cons, List.sum_cons]
    exact add_nonneg (sq_nonneg _) ih

/-- Branch equation of `polyfit1` on a nonsingular normal matrix. -/
theorem polyfit1_of_ne (pts : List (ℚ × ℚ)) (h : det1 pts ≠ 0) :
    polyfit1 pts = polyfit1Reg pts := by
  unfold polyfit1
  rw [if_neg h]

/-- Branch equation of `polyfit1` on a singular normal matrix. -/
theorem polyfit1_of_eq (pts : List (ℚ × ℚ)) (h : det1 pts = 0) :
    polyfit1 pts = polyfit1Sing pts := by
  unfold polyfit1
  rw [if_pos h]

/-- Branch equation of `polyfit2` on a nonsingular normal matrix. -/
theorem polyfit2_of_ne (pts : List (ℚ × ℚ)) (h : det2 pts ≠ 0) :
    polyfit2 pts = polyfit2Reg pts := by
  unfold polyfit2
  rw [if_neg h]

/-- Branch equation of `polyfit2` on a singular normal matrix. -/
theorem polyfit2_of_eq (pts : List (ℚ × ℚ)) (h : det2 pts = 0) :
    polyfit2 pts = polyfit2Sing pts := by
  unfold polyfit2
  rw [if_pos h]

/-- The zeroth power sum is the number of points. -/
theorem powSum_zero_eq (pts : List (ℚ × ℚ)) :
    powSum pts 0 = (pts.length : ℚ) := by
  induction pts with
  | nil => simp [powSum]
  | cons q t ih =>
    simp only [powSum, List.map_cons, List.sum_cons, List.length_cons] at ih ⊢
    push_cast
    linarith

/-- On nonempty data the zeroth power sum does not vanish. -/
theorem powSum_zero_ne (pts : List (ℚ × ℚ)) (hne : pts ≠ []) :
    powSum pts 0 ≠ 0 := by
  rw [powSum_zero_eq]
  have hl : pts.length ≠ 0 := by simpa [List.length_eq_zero] using hne
  exact_mod_cast hl

/-- A list sum of squares vanishes only if every term vanishes. -/
theorem sum_sq_eq_zero (l : List (ℚ × ℚ)) (f : ℚ × ℚ → ℚ)
    (h : (l.map fun q => f q ^ 2).sum = 0) : ∀ q ∈ l, f q = 0 := by
  induction l with
  | nil => simp
  | cons a t ih =>
    simp only [List.map_cons, List.sum_cons] at h
    have ht := sum_sq_nonneg t f
    have ha := sq_nonneg (f a)
    intro q hq
    rcases List.mem_cons.mp hq with rfl | hq2
    · have h1 : f q ^ 2 = 0 := by linarith
      exact (pow_eq_zero_iff (by norm_num)).mp h1
    · have h2 : (t.map fun q => f q ^ 2).sum = 0 := by linarith
      exact ih h2 q hq2

/-- Expansion of a sum of squared affine forms of the abscissas. -/
theorem sq_lin_expand (pts : List (ℚ × ℚ)) (A B : ℚ) :
    (pts.map fun q => (A * q.1 - B) ^ 2).sum =
      A ^ 2 * powSum pts 2 - 2 * A * B * powSum pts 1 +
        B ^ 2 * powSum pts 0 := by
  induction pts with
  | nil => simp [powSum]
  | cons q t ih =>
    simp only [powSum, List.map_cons, List.sum_cons] at ih ⊢
    linear_combination ih

/-- A singular degree-1 normal matrix on nonempty data forces all
abscissas to coincide. -/
theorem singular1_structure (pts : List (ℚ × ℚ)) (hne : pts ≠ [])
    (h1 : det1 pts = 0) :
    ∀ q ∈ pts, q.1 = powSum pts 1 / powSum pts 0 := by
  have hS0 := powSum_zero_ne pts hne
  have hsum :
      (pts.map fun q => (powSum pts 0 * q.1 - powSum pts 1) ^ 2).sum = 0 := by
    rw [sq_lin_expand]
    have he : powSum pts 0 ^ 2 * powSum pts 2 -
        2 * powSum pts 0 * powSum pts 1 * powSum pts 1 +
        powSum pts 1 ^ 2 * powSum pts 0 = powSum pts 0 * det1 pts := by
      simp only [det1]
      ring
    rw [he, h1, mul_zero]
  intro q hq
  have hz := sum_sq_eq_zero pts
    (fun q => powSum pts 0 * q.1 - powSum pts 1) hsum q hq
  field_simp
  linear_combination hz

/-- With all abscissas equal to `c`, the first mixed moment is `c`
times the zeroth. -/
theorem mixSum_one_of_const (pts : List (ℚ × ℚ)) (c : ℚ)
    (hc : ∀ q ∈ pts, q.1 = c) :
    mixSum pts 1 = c * mixSum pts 0 := by
  induction pts with
  | nil => simp [mixSum]
  | cons q t ih =>
    have hq := hc q (List.mem_cons_self q t)
    have ih2 := ih fun r hr => hc r (List.mem_cons_of_mem q hr)
    simp only [mixSum, List.map_cons, List.sum_cons] at ih2 ⊢
    rw [hq]
    linear_combination ih2

/-- The singular-branch degree-1 fit satisfies the order-0 normal
equation on nonempty data. -/
theorem polyfit1Sing_residMom0 (pts : List (ℚ × ℚ)) (hne : pts ≠ []) :
    residMom1 (polyfit1Sing pts) pts 0 = 0 := by
  have e := residMom1_eq (polyfit1Sing pts) pts 0
  norm_num at e
  rw [e]
  simp only [polyfit1Sing]
  have hS0 := powSum_zero_ne pts hne
  field_simp

/-- The singular-branch degree-1 fit satisfies the order-1 normal
equation on singular nonempty data. -/
theorem polyfit1Sing_residMom1 (pts : List (ℚ × ℚ)) (hne : pts ≠ [])
    (h1 : det1 pts = 0) :
    residMom1 (polyfit1Sing pts) pts 1 = 0 := by
  have e := residMom1_eq (polyfit1Sing pts) pts 1
  norm_num at e
  rw [e]
  simp only [polyfit1Sing]
  have hS0 := powSum_zero_ne pts hne
  have hM1 := mixSum_one_of_const pts (powSum pts 1 / powSum pts 0)
    (singular1_structure pts hne h1)
  rw [hM1]
  field_simp
  ring

/-- `polyfit1` is an ordinary least-squares minimizer on every
nonempty data set: no degree-1 candidate has a smaller sum of squared
residuals. -/
theorem polyfit1_ols (pts : List (ℚ × ℚ)) (hne : pts ≠ []) (p' : ℚ × ℚ) :
    ssr1 (polyfit1 pts) pts ≤ ssr1 p' pts := by
  by_cases h1 : det1 pts = 0
  · rw [polyfit1_of_eq pts h1]
    have d := ssr1_decomp (polyfit1Sing pts) p' pts
    rw [polyfit1Sing_residMom0 pts hne, polyfit1Sing_residMom1 pts hne h1] at d
    simp only [mul_zero, add_zero, zero_add] at d
    have hn := sum_sq_nonneg pts fun q =>
      polyval1 p' q.1 - polyval1 (polyfit1Sing pts) q.1
    linarith
  · rw [polyfit1_of_ne pts h1]
    have d := ssr1_decomp (polyfit1Reg pts) p' pts
    rw [polyfit1Reg_residMom0 pts h1, polyfit1Reg_residMom1 pts h1] at d
    simp only [mul_zero, add_zero, zero_add] at d
    have hn := sum_sq_nonneg pts fun q =>
      polyval1 p' q.1 - polyval1 (polyfit1Reg pts) q.1
    linarith

/-- Power sums of the auxiliary data coincide with those of the
original data. -/
theorem powSum_aux (pts : List (ℚ × ℚ)) (k : ℕ) :
    powSum (auxPts pts) k = powSum pts k := by
  induction pts with
  | nil => rfl
  | cons q t ih =>
    simp only [powSum, auxPts, List.map_cons, List.sum_cons] at ih ⊢
    linear_combination ih

/-- Mixed moments of the auxiliary data are higher power sums of the
original data. -/
theorem mixSum_aux (pts : List (ℚ × ℚ)) (k : ℕ) :
    mixSum (auxPts pts) k = powSum pts (k + 2) := by
  induction pts with
  | nil => rfl
  | cons q t ih =>
    simp only [mixSum, powSum, auxPts, List.map_cons, List.sum_cons] at ih ⊢
    linear_combination ih

/-- Squared ordinates of the auxiliary data are fourth powers of the
original abscissas. -/
theorem y2Sum_aux (pts : List (ℚ × ℚ)) :
    y2Sum (auxPts pts) = powSum pts 4 := by
  induction pts with
  | nil => rfl
  | cons q t ih =>
    simp only [y2Sum, powSum, auxPts, List.map_cons, List.sum_cons] at ih ⊢
    linear_combination ih

/-- The degree-1 normal determinant of the auxiliary data equals that
of the original data. -/
theorem det1_aux (pts : List (ℚ × ℚ)) : det1 (auxPts pts) = det1 pts := by
  simp only [det1, powSum_aux]

/-- Moment expansion of a degree-1 sum of squared residuals. -/
theorem ssr1_moments (p : ℚ × ℚ) (pts : List (ℚ × ℚ)) :
    ssr1 p pts =
      p.1 ^ 2 * powSum pts 2 + 2 * p.1 * p.2 * powSum pts 1 +
        p.2 ^ 2 * powSum pts 0 - 2 * p.1 * mixSum pts 1 -
        2 * p.2 * mixSum pts 0 + y2Sum pts := by
  induction pts with
  | nil => simp [ssr1, powSum, mixSum, y2Sum]
  | cons q t ih =>
    simp only [ssr1, powSum, mixSum, y2Sum, polyval1, List.map_cons,
      List.sum_cons] at ih ⊢
    linear_combination ih

/-- Gram determinant identity: the minimal sum of squared residuals of
fitting the squared abscissas against the abscissas, times the
degree-1 normal determinant, equals the degree-2 normal
determinant. -/
theorem gram_identity (pts : List (ℚ × ℚ)) (h1 : det1 pts ≠ 0) :
    ssr1 (polyfit1 (auxPts pts)) (auxPts pts) * det1 pts = det2 pts := by
  have hne1 : det1 (auxPts pts) ≠ 0 := by
    rw [det1_aux]
    exact h1
  rw [polyfit1_of_ne _ hne1, ssr1_moments]
  simp only [polyfit1Reg, powSum_aux, mixSum_aux, y2Sum_aux, det1_aux]
  norm_num
  field_simp
  simp only [det1, det2]
  ring

/-- A singular degree-2 normal matrix on nonempty data forces the
squared abscissas onto a common affine relation in the abscissas. -/
theorem singular2_structure (pts : List (ℚ × ℚ)) (hne : pts ≠ [])
    (h2 : det2 pts = 0) :
    ∃ β γ : ℚ, ∀ q ∈ pts, q.1 ^ 2 = β * q.1 + γ := by
  by_cases h1 : det1 pts = 0
  · refine ⟨powSum pts 1 / powSum pts 0, 0, fun q hq => ?_⟩
    rw [singular1_structure pts hne h1 q hq]
    ring
  · have hg := gram_identity pts h1
    rw [h2] at hg
    have hzero : ((auxPts pts).map fun r =>
        (polyval1 (polyfit1 (auxPts pts)) r.1 - r.2) ^ 2).sum = 0 := by
      rcases mul_eq_zero.mp hg with h | h
      · exact h
      · exact absurd h h1
    refine ⟨(polyfit1 (auxPts pts)).1, (polyfit1 (auxPts pts)).2,
      fun q hq => ?_⟩
    have hmem : ((q.1, q.1 ^ 2) : ℚ × ℚ) ∈ auxPts pts := by
      simp only [auxPts, List.mem_map]
      exact ⟨q, hq, rfl⟩
    have hz := sum_sq_eq_zero (auxPts pts)
      (fun r => polyval1 (polyfit1 (auxPts pts)) r.1 - r.2) hzero
      (q.1, q.1 ^ 2) hmem
    simp only [polyval1] at hz
    linarith

/-- A degree-2 candidate with zero leading coefficient has the same
residuals as the corresponding degree-1 candidate. -/
theorem ssr2_zero_coeff (b c : ℚ) (pts : List (ℚ × ℚ)) :
    ssr2 (0, b, c) pts = ssr1 (b, c) pts := by
  simp [ssr2, ssr1, polyval2, polyval1]

/-- Over data whose squared abscissas satisfy a common affine relation,
every degree-2 candidate collapses to a degree-1 candidate with the
same residuals. -/
theorem ssr2_reduce (pts : List (ℚ × ℚ)) (a b c β γ : ℚ)
    (hst : ∀ q ∈ pts, q.1 ^ 2 = β * q.1 + γ) :
    ssr2 (a, b, c) pts = ssr1 (a * β + b, a * γ + c) pts := by
  induction pts with
  | nil => rfl
  | cons q t ih =>
    have hq := hst q (List.mem_cons_self q t)
    have ih2 := ih fun r hr => hst r (List.mem_cons_of_mem q hr)
    simp only [ssr2, ssr1, polyval2, polyval1, List.map_cons,
      List.sum_cons] at ih2 ⊢
    rw [hq]
    linear_combination ih2

/-- `polyfit2` is an ordinary least-squares minimizer on every
nonempty data set: no degree-2 candidate has a smaller sum of squared
residuals. -/
theorem polyfit2_ols (pts : List (ℚ × ℚ)) (hne : pts ≠ []) (p' : ℚ × ℚ × ℚ) :
    ssr2 (polyfit2 pts) pts ≤ ssr2 p' pts := by
  by_cases h2 : det2 pts = 0
  · rw [polyfit2_of_eq pts h2]
    obtain ⟨β, γ, hst⟩ := singular2_structure pts hne h2
    obtain ⟨a2, b2, c2⟩ := p'
    show ssr2 (0, (polyfit1 pts).1, (polyfit1 pts).2) pts ≤ _
    rw [ssr2_zero_coeff, ssr2_reduce pts a2 b2 c2 β γ hst]
    exact polyfit1_ols pts hne _
  · rw [polyfit2_of_ne pts h2]
    have d := ssr2_decomp (polyfit2Reg pts) p' pts
    rw [polyfit2Reg_residMom0 pts h2, polyfit2Reg_residMom1 pts h2,
      polyfit2Reg_residMom2 pts h2] at d
    simp only [mul_zero, add_zero, zero_add] at d
    have hn := sum_sq_nonneg pts fun q =>
      polyval2 p' q.1 - polyval2 (polyfit2Reg pts) q.1
    linarith

/-- Evaluation of `fit_data` in linear mode on nonempty data. -/
theorem fit_data_linear_eq (data : List Obs) (hne : data ≠ []) :
    fit_data data "linear" = Except.ok
      (data.map fun r =>
        ⟨r.ts, r.tc, r.tf, polyval1 (polyfit1 (obsPts data)) (date2num r.ts),
          celsius_to_fahrenheit (polyval1 (polyfit1 (obsPts data)) (date2num r.ts))⟩,
       (["a", "b"], [(polyfit1 (obsPts data)).1, (polyfit1 (obsPts data)).2])) := by
  cases data with
  | nil => exact absurd rfl hne
  | cons a l => rfl

/-- Evaluation of `fit_data` in quadratic mode on nonempty data. -/
theorem fit_data_quadratic_eq (data : List Obs) (hne : data ≠ []) :
    fit_data data "quadratic" = Except.ok
      (data.map fun r =>
        ⟨r.ts, r.tc, r.tf, polyval2 (polyfit2 (obsPts data)) (date2num r.ts),
          celsius_to_fahrenheit (polyval2 (polyfit2 (obsPts data)) (date2num r.ts))⟩,
       (["a", "b", "c"],
        [(polyfit2 (obsPts data)).1, (polyfit2 (obsPts data)).2.1,
          (polyfit2 (obsPts data)).2.2])) := by
  cases data with
  | nil => exact absurd rfl hne
  | cons a l => rfl

/-- Characterization of `fit_data` on a valid mode and nonempty data:
it succeeds, labels the parameters as the mode dictates, and the
augmented rows restrict to the original rows. -/
theorem fit_data_valid_ok (data : List Obs) (m : String)
    (hm : m = "linear" ∨ m = "quadratic") (hne : data ≠ []) :
    ∃ rows labels vals,
      fit_data data m = Except.ok (rows, (labels, vals)) ∧
      (labels = ["a", "b"] ∧ vals.length = 2 ∨
        labels = ["a", "b", "c"] ∧ vals.length = 3) ∧
      rows.map (fun r => Obs.mk r.ts r.tc r.tf) = data ∧
      rows.length = data.length := by
  rcases hm with h | h <;> subst h
  · refine ⟨_, _, _, fit_data_linear_eq data hne, Or.inl ⟨rfl, rfl⟩, ?_, by simp⟩
    simp [List.map_map]
    exact List.map_id data
  · refine ⟨_, _, _, fit_data_quadratic_eq data hne, Or.inr ⟨rfl, rfl⟩, ?_, by simp⟩
    simp [List.map_map]
    exact List.map_id data

/-- C1 counterexample: on the empty cleaned table, linear mode does not
perform a fit; `np.polyfit` rejects the empty input, so `fit_data`
produces no parameter set at all. -/
theorem fit_data_empty_linear :
    fit_data [] "linear" = Except.error FitErr.emptyData := rfl

/-- C1 (amended): for every nonempty cleaned measurement table,
`fit_data` fits a degree-1 (linear) or degree-2 (quadratic) polynomial
of Celsius against the numeric day-count time by ordinary least
squares — the returned coefficients minimize the sum of squared
residuals over all candidates of that degree — each row's Celsius
prediction is the fitted polynomial evaluated at that row's numeric
time value, and the parameter set is labelled `a, b` (linear) or
`a, b, c` (quadratic) with coefficients in decreasing-power order. -/
theorem fit_data_ols_spec (data : List Obs) (hne : data ≠ []) :
    (∃ rows, fit_data data "linear" = Except.ok (rows,
        (["a", "b"], [(polyfit1 (obsPts data)).1, (polyfit1 (obsPts data)).2])) ∧
      rows.map FitRow.predC =
        data.map (fun r => polyval1 (polyfit1 (obsPts data)) (date2num r.ts)) ∧
      ∀ p, ssr1 (polyfit1 (obsPts data)) (obsPts data) ≤ ssr1 p (obsPts data)) ∧
    (∃ rows, fit_data data "quadratic" = Except.ok (rows,
        (["a", "b", "c"], [(polyfit2 (obsPts data)).1,
          (polyfit2 (obsPts data)).2.1, (polyfit2 (obsPts data)).2.2])) ∧
      rows.map FitRow.predC =
        data.map (fun r => polyval2 (polyfit2 (obsPts data)) (date2num r.ts)) ∧
      ∀ p, ssr2 (polyfit2 (obsPts data)) (obsPts data) ≤ ssr2 p (obsPts data)) := by
  have hne2 : obsPts data ≠ [] := by
    simpa [obsPts] using hne
  constructor
  · refine ⟨_, fit_data_linear_eq data hne, ?_, polyfit1_ols _ hne2⟩
    simp [List.map_map]
  · refine ⟨_, fit_data_quadratic_eq data hne, ?_, polyfit2_ols _ hne2⟩
    simp [List.map_map]

/-- C1 witness: the amended statement instantiated at a concrete
three-point table. -/
theorem fit_data_ols_spec_witness :
    wObs3 ≠ [] ∧
    ((∃ rows, fit_data wObs3 "linear" = Except.ok (rows,
        (["a", "b"], [(polyfit1 (obsPts wObs3)).1, (polyfit1 (obsPts wObs3)).2])) ∧
      rows.map FitRow.predC =
        wObs3.map (fun r => polyval1 (polyfit1 (obsPts wObs3)) (date2num r.ts)) ∧
      ∀ p, ssr1 (polyfit1 (obsPts wObs3)) (obsPts wObs3) ≤ ssr1 p (obsPts wObs3)) ∧
    (∃ rows, fit_data wObs3 "quadratic" = Except.ok (rows,
        (["a", "b", "c"], [(polyfit2 (obsPts wObs3)).1,
          (polyfit2 (obsPts wObs3)).2.1, (polyfit2 (obsPts wObs3)).2.2])) ∧
      rows.map FitRow.predC =
        wObs3.map (fun r => polyval2 (polyfit2 (obsPts wObs3)) (date2num r.ts)) ∧
      ∀ p, ssr2 (polyfit2 (obsPts wObs3)) (obsPts wObs3) ≤ ssr2 p (obsPts wObs3))) :=
  ⟨by simp [wObs3], fit_data_ols_spec wObs3 (by simp [wObs3])⟩

/-- C10 counterexample: on the empty cleaned table, quadratic mode does
not return an augmented table at all; `np.polyfit` rejects the empty
input. -/
theorem fit_data_empty_quadratic :
    fit_data [] "quadratic" = Except.error FitErr.emptyData := rfl

/-- C10 (amended): for every nonempty cleaned measurement table and
valid fit mode, `fit_data` keeps the number of rows, their order and the
three original columns unchanged, and only appends the two prediction
columns. -/
theorem fit_data_frame_spec (data : List Obs) (m : String)
    (hm : m = "linear" ∨ m = "quadratic") (hne : data ≠ []) :
    ∃ rows params, fit_data data m = Except.ok (rows, params) ∧
      rows.map (fun r => Obs.mk r.ts r.tc r.tf) = data ∧
      rows.length = data.length := by
  obtain ⟨rows, labels, vals, h1, _, h3, h4⟩ := fit_data_valid_ok data m hm hne
  exact ⟨rows, (labels, vals), h1, h3, h4⟩

/-- C10 witness: the amended statement instantiated at a concrete
three-point table in linear mode. -/
theorem fit_data_frame_spec_witness :
    (("linear" : String) = "linear" ∨ ("linear" : String) = "quadratic") ∧
    wObs3 ≠ [] ∧
    (∃ rows params, fit_data wObs3 "linear" = Except.ok (rows, params) ∧
      rows.map (fun r => Obs.mk r.ts r.tc r.tf) = wObs3 ∧
      rows.length = wObs3.length) :=
  ⟨Or.inl rfl, by simp [wObs3],
   fit_data_frame_spec wObs3 "linear" (Or.inl rfl) (by simp [wObs3])⟩

/-- C3: in every table `fit_data` produces, the Fahrenheit prediction of
each row is the Celsius prediction times 9/5 plus 32. -/
theorem prediction_fahrenheit (data : List Obs) (m : String)
    (rows : List FitRow) (params : List String × List ℚ)
    (h : fit_data data m = Except.ok (rows, params)) :
    ∀ r ∈ rows, r.predF = r.predC * 9 / 5 + 32 := by
  by_cases h1 : m = "linear"
  · subst h1
    cases data with
    | nil => simp [fit_data] at h
    | cons a l =>
      rw [fit_data_linear_eq (a :: l) (by simp)] at h
      simp only [Except.ok.injEq, Prod.mk.injEq] at h
      obtain ⟨hrows, -⟩ := h
      subst hrows
      intro r hr
      rw [List.mem_map] at hr
      obtain ⟨r0, -, rfl⟩ := hr
      simp [celsius_to_fahrenheit]
  · by_cases h2 : m = "quadratic"
    · subst h2
      cases data with
      | nil => simp [fit_data] at h
      | cons a l =>
        rw [fit_data_quadratic_eq (a :: l) (by simp)] at h
        simp only [Except.ok.injEq, Prod.mk.injEq] at h
        obtain ⟨hrows, -⟩ := h
        subst hrows
        intro r hr
        rw [List.mem_map] at hr
        obtain ⟨r0, -, rfl⟩ := hr
        simp [celsius_to_fahrenheit]
    · simp [fit_data, h1, h2] at h

/-- Evaluation of the linear fit on the two-point witness table. -/
theorem wObsLin_fit :
    fit_data wObsLin "linear" =
      Except.ok (wRowsLin, (["a", "b"], [1, 0])) := by
  rw [fit_data_linear_eq wObsLin (by simp [wObsLin])]
  norm_num [wObsLin, wRowsLin, obsPts, powSum, mixSum, det1, polyfit1,
    polyfit1Reg, polyfit1Sing, polyval1, celsius_to_fahrenheit, date2num]

/-- C3 witness: the statement instantiated at a concrete two-point
linear run. -/
theorem prediction_fahrenheit_witness :
    fit_data wObsLin "linear" = Except.ok (wRowsLin, (["a", "b"], [1, 0])) ∧
    ∀ r ∈ wRowsLin, r.predF = r.predC * 9 / 5 + 32 :=
  ⟨wObsLin_fit,
   prediction_fahrenheit wObsLin "linear" wRowsLin (["a", "b"], [1, 0]) wObsLin_fit⟩

/-- Every mode the Input Collector returns is one of the two valid
lowercase modes. -/
theorem getFitOption_mem (inputs : List String) (m : String)
    (h : getFitOption inputs = some m) : m = "linear" ∨ m = "quadratic" := by
  induction inputs with
  | nil => simp [getFitOption] at h
  | cons s t ih =>
    by_cases hs : lower s ∈ ["linear", "quadratic"]
    · rw [getFitOption, if_pos hs] at h
      simp only [Option.some.injEq] at h
      subst h
      simpa using hs
    · rw [getFitOption, if_neg hs] at h
      exact ih h

/-- C5: on every fit-mode value other than "linear" and "quadratic",
`fit_data` raises `NotImplementedError` rather than silently
defaulting, and this branch is unreachable for any mode the Input
Collector returns. -/
theorem fit_data_invalid_mode :
    (∀ (data : List Obs) (m : String), m ≠ "linear" → m ≠ "quadratic" →
      fit_data data m = Except.error FitErr.notImplemented) ∧
    (∀ (inputs : List String) (m : String) (data : List Obs),
      getFitOption inputs = some m →
      fit_data data m ≠ Except.error FitErr.notImplemented) := by
  constructor
  · intro data m h1 h2
    simp [fit_data, h1, h2]
  · intro inputs m data hm
    rcases getFitOption_mem inputs m hm with h | h <;> subst h <;>
      cases data <;> simp [fit_data]

/-- C5 witness: the statement instantiated at the mode "cubic" and at a
collector run that accepts "QUADRATIC". -/
theorem fit_data_invalid_mode_witness :
    ("cubic" : String) ≠ "linear" ∧ ("cubic" : String) ≠ "quadratic" ∧
    fit_data [] "cubic" = Except.error FitErr.notImplemented ∧
    getFitOption ["QUADRATIC"] = some "quadratic" ∧
    fit_data [] "quadratic" ≠ Except.error FitErr.notImplemented :=
  ⟨by decide, by decide,
   fit_data_invalid_mode.1 [] "cubic" (by decide) (by decide),
   by decide,
   fit_data_invalid_mode.2 ["QUADRATIC"] "quadratic" [] (by decide)⟩

/-- Looking up the path just written returns the written content: a
write overwrites any existing file of the same name. -/
theorem lookupFS_write_self (fs : FS) (p : String) (c : FileContent) :
    lookupFS (writeFS fs p c) p = some c := by
  simp [lookupFS, writeFS]

/-- Looking up a different path is unaffected by a write. -/
theorem lookupFS_write_other (fs : FS) (p q : String) (c : FileContent)
    (h : p ≠ q) : lookupFS (writeFS fs p c) q = lookupFS fs q := by
  simp [lookupFS, writeFS, h]

/-- Left cancellation for string concatenation. -/
theorem str_append_cancel (s a b : String) (h : s ++ a = s ++ b) : a = b := by
  have hd : s.data ++ a.data = s.data ++ b.data := by
    have hc := congrArg String.data h
    simpa [String.data_append] using hc
  exact String.ext (List.append_cancel_left hd)

/-- Appending different suffixes to the same mode string gives
different file names. -/
theorem mode_suffix_ne (m a b : String) (h : a ≠ b) : m ++ a ≠ m ++ b :=
  fun hc => h (str_append_cancel m a b hc)

/-- Joining different file names to the same directory gives different
paths. -/
theorem joinPath_ne (d a b : String) (h : a ≠ b) :
    joinPath d a ≠ joinPath d b := by
  unfold joinPath
  by_cases hd : d = ""
  · simpa [hd] using h
  · simp only [hd, if_neg, ite_false]
    exact fun hc => h (str_append_cancel (d ++ "/") a b hc)

/-- Unfolding of a successful pipeline run: `main` writes the parameter
file, then the predictions file, then the plot, all into the directory
of the input file. -/
theorem main_eq (fs : FS) (p m : String) (raw : List RawRow)
    (rows : List FitRow) (params : List String × List ℚ)
    (h1 : read_excel fs p = Except.ok raw)
    (h2 : fit_data (read_data raw) m = Except.ok (rows, params)) :
    main fs p m = Except.ok
      (plot_data
        (save_predictions (save_fit_params fs params m (dirname p)) rows m
          (dirname p))
        rows m (dirname p)) := by
  simp only [main, h1, h2]

/-- C6: a successful run writes the fit parameters to
`<mode>_fit_parameters.csv` as one header row of coefficient names
(`a,b` or `a,b,c`) plus one value row, and the augmented table to
`<mode>_predictions.csv` with the five-column prediction header and one
row per retained observation in table order, both in the directory of
the input file, irrespective of what the file system previously held at
those paths (overwriting). -/
theorem save_outputs_spec (fs : FS) (p m : String) (raw : List RawRow)
    (h1 : read_excel fs p = Except.ok raw) (h2 : read_data raw ≠ [])
    (h3 : m = "linear" ∨ m = "quadratic") :
    ∃ fs' rows labels vals,
      main fs p m = Except.ok fs' ∧
      fit_data (read_data raw) m = Except.ok (rows, (labels, vals)) ∧
      (labels = ["a", "b"] ∧ vals.length = 2 ∨
        labels = ["a", "b", "c"] ∧ vals.length = 3) ∧
      lookupFS fs' (joinPath (dirname p) (m ++ "_fit_parameters.csv")) =
        some (FileContent.csv labels [vals.map Value.num]) ∧
      lookupFS fs' (joinPath (dirname p) (m ++ "_predictions.csv")) =
        some (FileContent.csv predHeader (rows.map fitRowToCsv)) ∧
      rows.length = (read_data raw).length := by
  obtain ⟨rows, labels, vals, hf, hl, -, hlen⟩ :=
    fit_data_valid_ok (read_data raw) m h3 h2
  refine ⟨_, rows, labels, vals,
    main_eq fs p m raw rows (labels, vals) h1 hf, hf, hl, ?_, ?_, hlen⟩
  · unfold plot_data save_predictions save_fit_params
    rw [lookupFS_write_other _ _ _ _
        (joinPath_ne _ _ _ (mode_suffix_ne m _ _ (by decide))),
      lookupFS_write_other _ _ _ _
        (joinPath_ne _ _ _ (mode_suffix_ne m _ _ (by decide))),
      lookupFS_write_self]
  · unfold plot_data save_predictions save_fit_params
    rw [lookupFS_write_other _ _ _ _
        (joinPath_ne _ _ _ (mode_suffix_ne m _ _ (by decide))),
      lookupFS_write_self]

/-- C6 witness: the statement instantiated at a concrete linear run over
a file system that already holds a stale parameter file. -/
theorem save_outputs_spec_witness :
    read_excel wFs6 "data.xlsx" = Except.ok wRaw6 ∧
    read_data wRaw6 ≠ [] ∧
    (("linear" : String) = "linear" ∨ ("linear" : String) = "quadratic") ∧
    (∃ fs' rows labels vals,
      main wFs6 "data.xlsx" "linear" = Except.ok fs' ∧
      fit_data (read_data wRaw6) "linear" = Except.ok (rows, (labels, vals)) ∧
      (labels = ["a", "b"] ∧ vals.length = 2 ∨
        labels = ["a", "b", "c"] ∧ vals.length = 3) ∧
      lookupFS fs' (joinPath (dirname "data.xlsx") ("linear" ++ "_fit_parameters.csv")) =
        some (FileContent.csv labels [vals.map Value.num]) ∧
      lookupFS fs' (joinPath (dirname "data.xlsx") ("linear" ++ "_predictions.csv")) =
        some (FileContent.csv predHeader (rows.map fitRowToCsv)) ∧
      rows.length = (read_data wRaw6).length) :=
  ⟨rfl, by decide, Or.inl rfl,
   save_outputs_spec wFs6 "data.xlsx" "linear" wRaw6 rfl (by decide) (Or.inl rfl)⟩

/-- C7 counterexample: a one-row input whose only row has the
non-numeric Celsius value "N/A" has fewer than 3 valid rows, and the
quadratic pipeline run on it crashes with the `np.polyfit` empty-input
error instead of producing output files. -/
theorem quad_empty_input_crash :
    (read_data [badRow]).length < 3 ∧
    main wFs7 "data.xlsx" "quadratic" =
      Except.error (RunErr.fitError FitErr.emptyData) :=
  ⟨by decide, rfl⟩

/-- C7 (amended): for every input whose cleaned table has at least one
and fewer than 3 valid rows, requesting quadratic mode still produces
the output parameter and prediction files (the fit may be numerically
degenerate) rather than crashing the pipeline. -/
theorem quad_small_input_spec (fs : FS) (p : String) (raw : List RawRow)
    (h1 : read_excel fs p = Except.ok raw) (h2 : read_data raw ≠ [])
    (_h3 : (read_data raw).length < 3) :
    ∃ fs', main fs p "quadratic" = Except.ok fs' ∧
      (lookupFS fs'
        (joinPath (dirname p) ("quadratic" ++ "_fit_parameters.csv"))).isSome = true ∧
      (lookupFS fs'
        (joinPath (dirname p) ("quadratic" ++ "_predictions.csv"))).isSome = true := by
  obtain ⟨rows, labels, vals, hf, -, -, -⟩ :=
    fit_data_valid_ok (read_data raw) "quadratic" (Or.inr rfl) h2
  refine ⟨_, main_eq fs p "quadratic" raw rows (labels, vals) h1 hf, ?_, ?_⟩
  · unfold plot_data save_predictions save_fit_params
    rw [lookupFS_write_other _ _ _ _
        (joinPath_ne _ _ _ (mode_suffix_ne "quadratic" _ _ (by decide))),
      lookupFS_write_other _ _ _ _
        (joinPath_ne _ _ _ (mode_suffix_ne "quadratic" _ _ (by decide))),
      lookupFS_write_self]
    rfl
  · unfold plot_data save_predictions save_fit_params
    rw [lookupFS_write_other _ _ _ _
        (joinPath_ne _ _ _ (mode_suffix_ne "quadratic" _ _ (by decide))),
      lookupFS_write_self]
    rfl

/-- C7 witness: the amended statement instantiated at a concrete
two-valid-row input in quadratic mode. -/
theorem quad_small_input_spec_witness :
    read_excel wFs7b "data.xlsx" = Except.ok wRaw7b ∧
    read_data wRaw7b ≠ [] ∧ (read_data wRaw7b).length < 3 ∧
    (∃ fs', main wFs7b "data.xlsx" "quadratic" = Except.ok fs' ∧
      (lookupFS fs'
        (joinPath (dirname "data.xlsx") ("quadratic" ++ "_fit_parameters.csv"))).isSome = true ∧
      (lookupFS fs'
        (joinPath (dirname "data.xlsx") ("quadratic" ++ "_predictions.csv"))).isSome = true) :=
  ⟨rfl, by decide, by decide,
   quad_small_input_spec wFs7b "data.xlsx" wRaw7b rfl (by decide) (by decide)⟩

/-- C8 counterexample: when the input file is named like an output file
(here `linear_predictions.csv`), the first linear run succeeds but
overwrites the input spreadsheet with CSV text, so the second run fails
to parse it and produces no files at all instead of identical ones. -/
theorem pipeline_second_run_crash :
    runTwice wFsClash "linear_predictions.csv" "linear" =
      Except.error RunErr.notExcel := by
  obtain ⟨rows, labels, vals, hf, -, -, -⟩ :=
    fit_data_valid_ok (read_data wRaw6) "linear" (Or.inl rfl) (by decide)
  have e1 := main_eq wFsClash "linear_predictions.csv" "linear" wRaw6 rows
    (labels, vals) rfl hf
  have hlook : lookupFS
      (plot_data
        (save_predictions
          (save_fit_params wFsClash (labels, vals) "linear"
            (dirname "linear_predictions.csv"))
          rows "linear" (dirname "linear_predictions.csv"))
        rows "linear" (dirname "linear_predictions.csv"))
      "linear_predictions.csv" =
      some (FileContent.csv predHeader (rows.map fitRowToCsv)) := by
    unfold plot_data save_predictions
    rw [lookupFS_write_other _ _ _ _ (by decide)]
    exact lookupFS_write_self _ _ _
  unfold runTwice
  rw [e1]
  simp only [main, read_excel, hlook]

/-- C8 (amended): provided the input path differs from the three output
paths, the pipeline is deterministic and idempotent: running it a
second time on the same input file and mode succeeds and leaves every
path of the file system with the same content as after the first
run. -/
theorem pipeline_idempotent (fs : FS) (p m : String) (raw : List RawRow)
    (h1 : read_excel fs p = Except.ok raw) (h2 : read_data raw ≠ [])
    (h3 : m = "linear" ∨ m = "quadratic")
    (hp1 : p ≠ joinPath (dirname p) (m ++ "_fit_parameters.csv"))
    (hp2 : p ≠ joinPath (dirname p) (m ++ "_predictions.csv"))
    (hp3 : p ≠ joinPath (dirname p) (m ++ "_fit.png")) :
    ∃ fs' fs'', main fs p m = Except.ok fs' ∧ main fs' p m = Except.ok fs'' ∧
      ∀ q, lookupFS fs'' q = lookupFS fs' q := by
  obtain ⟨rows, labels, vals, hf, -, -, -⟩ :=
    fit_data_valid_ok (read_data raw) m h3 h2
  have e1 := main_eq fs p m raw rows (labels, vals) h1 hf
  have hsame : lookupFS
      (plot_data
        (save_predictions (save_fit_params fs (labels, vals) m (dirname p))
          rows m (dirname p)) rows m (dirname p)) p = lookupFS fs p := by
    unfold plot_data save_predictions save_fit_params
    rw [lookupFS_write_other _ _ _ _ (Ne.symm hp3),
      lookupFS_write_other _ _ _ _ (Ne.symm hp2),
      lookupFS_write_other _ _ _ _ (Ne.symm hp1)]
  have hr : read_excel
      (plot_data
        (save_predictions (save_fit_params fs (labels, vals) m (dirname p))
          rows m (dirname p)) rows m (dirname p)) p = Except.ok raw := by
    unfold read_excel at h1 ⊢
    rw [hsame]
    exact h1
  have e2 := main_eq
    (plot_data
      (save_predictions (save_fit_params fs (labels, vals) m (dirname p))
        rows m (dirname p)) rows m (dirname p)) p m raw rows (labels, vals) hr hf
  refine ⟨_, _, e1, e2, ?_⟩
  intro q
  by_cases q1 : joinPath (dirname p) (m ++ "_fit.png") = q
  · subst q1
    unfold plot_data
    rw [lookupFS_write_self, lookupFS_write_self]
  · by_cases q2 : joinPath (dirname p) (m ++ "_predictions.csv") = q
    · subst q2
      unfold plot_data save_predictions
      rw [lookupFS_write_other _ _ _ _ q1, lookupFS_write_other _ _ _ _ q1,
        lookupFS_write_self, lookupFS_write_self]
    · by_cases q3 : joinPath (dirname p) (m ++ "_fit_parameters.csv") = q
      · subst q3
        unfold plot_data save_predictions save_fit_params
        rw [lookupFS_write_other _ _ _ _ q1, lookupFS_write_other _ _ _ _ q1,
          lookupFS_write_other _ _ _ _ q2, lookupFS_write_other _ _ _ _ q2,
          lookupFS_write_self, lookupFS_write_self]
      · conv_lhs => rw [plot_data, save_predictions, save_fit_params]
        rw [lookupFS_write_other _ _ _ _ q1, lookupFS_write_other _ _ _ _ q2,
          lookupFS_write_other _ _ _ _ q3]

/-- C8 witness: the statement instantiated at a concrete two-row linear
run. -/
theorem pipeline_idempotent_witness :
    read_excel wFs8 "data.xlsx" = Except.ok wRaw6 ∧
    read_data wRaw6 ≠ [] ∧
    (("linear" : String) = "linear" ∨ ("linear" : String) = "quadratic") ∧
    ("data.xlsx" : String) ≠
      joinPath (dirname "data.xlsx") ("linear" ++ "_fit_parameters.csv") ∧
    ("data.xlsx" : String) ≠
      joinPath (dirname "data.xlsx") ("linear" ++ "_predictions.csv") ∧
    ("data.xlsx" : String) ≠
      joinPath (dirname "data.xlsx") ("linear" ++ "_fit.png") ∧
    (∃ fs' fs'', main wFs8 "data.xlsx" "linear" = Except.ok fs' ∧
      main fs' "data.xlsx" "linear" = Except.ok fs'' ∧
      ∀ q, lookupFS fs'' q = lookupFS fs' q) :=
  ⟨rfl, by decide, Or.inl rfl, by decide, by decide, by decide,
   pipeline_idempotent wFs8 "data.xlsx" "linear" wRaw6 rfl (by decide)
     (Or.inl rfl) (by decide) (by decide) (by decide)⟩

/-- Every serialized coefficient cell reads back as numeric. -/
theorem map_num_all (vals : List ℚ) :
    (vals.map Value.num).all (fun c => (cellToNum c).isSome) = true := by
  simp [cellToNum]

/-- Reading back the serialized coefficient cells recovers the values. -/
theorem map_num_filterMap (vals : List ℚ) :
    List.filterMap (cellToNum ∘ Value.num) vals = vals := by
  induction vals with
  | nil => rfl
  | cons v t ih => simpa [cellToNum] using ih

/-- C9: writing a fit parameter set with the Persistence Writer and
reading the produced parameter file back yields the same coefficient
values with the same labels in the same order. -/
theorem fit_params_roundtrip (fs : FS) (labels : List String)
    (vals : List ℚ) (fit_option folder : String) :
    read_fit_params (save_fit_params fs (labels, vals) fit_option folder)
      (joinPath folder (fit_option ++ "_fit_parameters.csv")) =
      some (labels, vals) := by
  unfold read_fit_params save_fit_params
  rw [lookupFS_write_self]
  simp [map_num_all, map_num_filterMap]

/-- C4: the Input Collector re-prompts until the entered fit-mode
string case-insensitively matches "linear" or "quadratic": it returns
`some m` exactly when some entry lowercases into the valid set, every
earlier entry does not (those are rejected and re-prompted), and `m` is
the lowercase normalization of that first accepted entry; it returns
`none` exactly when every entry of the finite input sequence is
rejected. -/
theorem get_fit_option_spec (inputs : List String) :
    (∀ m, getFitOption inputs = some m ↔
      ∃ k, ∃ hk : k < inputs.length,
        lower (inputs.get ⟨k, hk⟩) ∈ ["linear", "quadratic"] ∧
        m = lower (inputs.get ⟨k, hk⟩) ∧
        ∀ j (hj : j < k),
          lower (inputs.get ⟨j, lt_trans hj hk⟩) ∉ ["linear", "quadratic"]) ∧
    (getFitOption inputs = none ↔
      ∀ s ∈ inputs, lower s ∉ ["linear", "quadratic"]) := by
  induction inputs with
  | nil =>
    constructor
    · intro m
      simp [getFitOption]
    · simp [getFitOption]
  | cons s t ih =>
    by_cases hs : lower s ∈ ["linear", "quadratic"]
    · constructor
      · intro m
        rw [getFitOption, if_pos hs]
        constructor
        · intro h
          simp only [Option.some.injEq] at h
          refine ⟨0, Nat.succ_pos t.length, hs, h.symm, ?_⟩
          intro j hj
          exact absurd hj (Nat.not_lt_zero j)
        · rintro ⟨k, hk, hval, hm, hmin⟩
          cases k with
          | zero =>
            subst hm
            rfl
          | succ i => exact absurd hs (hmin 0 (Nat.succ_pos i))
      · constructor
        · intro h
          rw [getFitOption, if_pos hs] at h
          exact Option.noConfusion h
        · intro h
          exact absurd hs (h s (List.mem_cons_self s t))
    · have hrec : getFitOption (s :: t) = getFitOption t := by
        rw [getFitOption, if_neg hs]
      constructor
      · intro m
        rw [hrec, ih.1 m]
        constructor
        · rintro ⟨k, hk, hval, hm, hmin⟩
          refine ⟨k + 1, Nat.succ_lt_succ hk, hval, hm, ?_⟩
          intro j hj
          cases j with
          | zero => exact hs
          | succ i => exact hmin i (Nat.lt_of_succ_lt_succ hj)
        · rintro ⟨k, hk, hval, hm, hmin⟩
          cases k with
          | zero => exact absurd hval hs
          | succ i =>
            refine ⟨i, Nat.lt_of_succ_lt_succ hk, hval, hm, ?_⟩
            intro j hj
            exact hmin (j + 1) (Nat.succ_lt_succ hj)
      · rw [hrec]
        constructor
        · intro h s2 hs2
          rcases List.mem_cons.mp hs2 with rfl | hmem
          · exact hs
          · exact (ih.2.mp h) s2 hmem
        · intro h
          exact ih.2.mpr fun s2 hs2 => h s2 (List.mem_cons_of_mem s hs2)

end SmartCae
